import Mathlib

/-!
Verification of `bin/cygwin_tty.py`, a raw-mode terminal bridge.

The program opens `/dev/tty` read-only, writes the terminal geometry as an
8-byte little-endian header to stdout, switches the terminal into a raw mode
(saving the original attributes), then relays bytes from the tty to stdout
in chunks of at most 64 bytes until the tty reaches end-of-stream, a tty
read raises, or stdin becomes readable (in which case a single 0x00 byte is
written).  The original attributes are restored in a `finally` block.

We embed the program shallowly: the operating-system environment supplies a
trace of loop events (select wakeups with readiness flags and read results,
or an uncaught exception from a call inside the loop body), plus the results
of the startup calls (open, geometry query, attribute query).  The program
is a function from such an environment to a list of observable effects
(stdout writes and tcsetattr calls).
-/

/-- termios ICRNL input flag (0o400). -/
def ICRNL : Nat := 256

/-- termios ECHO local flag (0o10). -/
def ECHO : Nat := 8

/-- termios ICANON local flag (0o2). -/
def ICANON : Nat := 2

/-- termios ISIG local flag (0o1). -/
def ISIG : Nat := 1

/-- termios TCSAFLUSH action: apply after draining output, discarding pending input. -/
def TCSAFLUSH : Nat := 2

/-- The 7-element list returned by `termios.tcgetattr`:
`[iflag, oflag, cflag, lflag, ispeed, ospeed, cc]`. -/
structure TermAttrs where
  iflag : Nat
  oflag : Nat
  cflag : Nat
  lflag : Nat
  ispeed : Nat
  ospeed : Nat
  cc : List Nat
deriving DecidableEq, Repr

/-- The modified attribute list built at lines 19-21:
`new = list(old); new[0] &= ~ICRNL; new[3] &= ~(ECHO | ICANON | ISIG)`.
Python's `x & ~m` on nonnegative ints is `Nat.ldiff x m`. -/
def rawMode (a : TermAttrs) : TermAttrs :=
  { a with
    iflag := Nat.ldiff a.iflag ICRNL
    lflag := Nat.ldiff a.lflag (ECHO ||| ICANON ||| ISIG) }

/-- Result of `os.read(fd, 64)`: a chunk of bytes (possibly empty, meaning
end-of-stream), or a raised `OSError`. -/
inductive ReadRes where
  | chunk (bs : List Nat)
  | rerr
deriving DecidableEq, Repr

/-- One turn of the bridging loop, supplied by the environment:
either a `select` wakeup (readiness of the tty fd and of stdin, the result
the next `os.read(fd, 64)` would return, and the bytes pending on stdin,
which the program never reads), or an uncaught exception raised by a call
inside the loop body (`select` or a stdout write). -/
inductive Event where
  | wake (fdR stdinR : Bool) (rd : ReadRes) (stdinData : List Nat)
  | exc
deriving DecidableEq, Repr

/-- Why the bridging loop stopped. -/
inductive ExitReason where
  | ttyEof
  | ttyErr
  | stdinSig
  | excProp
deriving DecidableEq, Repr

/-- Observable effects of the program: the initial open, writes to stdout,
`termios.tcsetattr` calls (action, attribute list), and a close of the tty
descriptor (never performed by this program, present so its absence is
expressible). -/
inductive Effect where
  | openTTY
  | writeOut (bs : List Nat)
  | setAttr (act : Nat) (a : TermAttrs)
  | closeFd
deriving DecidableEq, Repr

/-- The bridging loop (lines 26-38), driven by a finite trace of events.
Returns the effects it performs and the exit reason (`none` when the trace
ran out with the loop still blocked in `select`).

Per wakeup: if the tty fd is readable, `os.read(fd, 64)` is attempted; a
raise breaks out of the loop (the bare `except: break`), a zero-length
result breaks out, otherwise the chunk is written to stdout and control
falls through to the stdin check.  If stdin is readable, a single 0x00 byte
is written and the loop breaks.  Note the `break` on read error or
end-of-stream skips the stdin check even when stdin was also ready. -/
def runLoop : List Event → List Effect × Option ExitReason
  | [] => ([], none)
  | Event.exc :: _ => ([], some ExitReason.excProp)
  | Event.wake fdR stdinR rd _ :: es =>
    if fdR then
      match rd with
      | ReadRes.rerr => ([], some ExitReason.ttyErr)
      | ReadRes.chunk bs =>
        if bs.length = 0 then ([], some ExitReason.ttyEof)
        else if stdinR then
          ([Effect.writeOut bs, Effect.writeOut [0]], some ExitReason.stdinSig)
        else
          let p := runLoop es
          (Effect.writeOut bs :: p.1, p.2)
    else if stdinR then ([Effect.writeOut [0]], some ExitReason.stdinSig)
    else runLoop es

/-- The chunks successfully read from the tty, in order, up to the point
where the loop exits. -/
def chunksRead : List Event → List (List Nat)
  | [] => []
  | Event.exc :: _ => []
  | Event.wake fdR stdinR rd _ :: es =>
    if fdR then
      match rd with
      | ReadRes.rerr => []
      | ReadRes.chunk bs =>
        if bs.length = 0 then []
        else if stdinR then [bs]
        else bs :: chunksRead es
    else if stdinR then []
    else chunksRead es

/-- The environment of one run: whether `os.open` succeeds, the result of
`os.get_terminal_size` (`none` = raises), the result of `termios.tcgetattr`
(`none` = raises), whether the `tcsetattr` to raw mode raises, and the loop
events. -/
structure Env where
  openOk : Bool
  size : Option (Nat × Nat)
  tcget : Option TermAttrs
  setRawRaises : Bool
  iters : List Event
deriving DecidableEq, Repr

/-- `struct.pack` of one `<L` field: the 4-byte little-endian encoding. -/
def le32 (n : Nat) : List Nat :=
  [n % 256, n / 256 % 256, n / 65536 % 256, n / 16777216 % 256]

/-- Decode a little-endian byte list. -/
def fromLE (bs : List Nat) : Nat :=
  bs.foldr (fun b acc => b + 256 * acc) 0

/-- The full effect trace of `main` (lines 12-40).  Each startup call that
raises aborts the run at that point (the exception propagates out of
`main`); `struct.pack('<LL', ...)` raises `struct.error` when a value does
not fit in 32 bits.  Once `tcgetattr` has succeeded, the `try/finally`
guarantees the restoring `tcsetattr(fd, TCSAFLUSH, old)` is the final
effect on every exit path. -/
def mainEffects (env : Env) : List Effect :=
  if env.openOk then
    Effect.openTTY ::
      (match env.size with
       | none => []
       | some (c, r) =>
         if c < 2 ^ 32 ∧ r < 2 ^ 32 then
           Effect.writeOut (le32 c ++ le32 r) ::
             (match env.tcget with
              | none => []
              | some old =>
                Effect.setAttr TCSAFLUSH (rawMode old) ::
                  ((if env.setRawRaises then [] else (runLoop env.iters).1) ++
                    [Effect.setAttr TCSAFLUSH old]))
         else [])
  else []

/-- The bytes a run sends to stdout: concatenation of the write effects. -/
def outBytes : List Effect → List Nat
  | [] => []
  | Effect.writeOut bs :: es => bs ++ outBytes es
  | _ :: es => outBytes es

/-- The trailing terminator: a single 0x00 byte exactly when the loop exited
through the stdin-readable branch. -/
def termSuffix (r : Option ExitReason) : List Nat :=
  if r = some ExitReason.stdinSig then [0] else []

/-- `os.read(fd, 64)` returns at most 64 bytes: well-formedness of the
event trace the OS supplies. -/
def wf64 : List Event → Bool
  | [] => true
  | Event.exc :: es => wf64 es
  | Event.wake _ _ (ReadRes.chunk bs) _ :: es => bs.length ≤ 64 && wf64 es
  | Event.wake _ _ ReadRes.rerr _ :: es => wf64 es

/-- Erase the stdin byte content from an event; the program never reads it. -/
def stripStdin : Event → Event
  | Event.wake f s rd _ => Event.wake f s rd []
  | Event.exc => Event.exc

/-! ## Helper lemmas -/

/-- The bytes the loop writes are the concatenation of the chunks read,
followed by the 0x00 terminator exactly when it exited via stdin. -/
theorem runLoop_out_eq (tr : List Event) :
    outBytes (runLoop tr).1 = (chunksRead tr).flatten ++ termSuffix (runLoop tr).2 := by
  induction tr with
  | nil => simp [runLoop, chunksRead, outBytes, termSuffix]
  | cons e es ih =>
    cases e with
    | exc => simp [runLoop, chunksRead, outBytes, termSuffix]
    | wake fdR stdinR rd d =>
      cases rd with
      | rerr =>
        cases fdR <;> cases stdinR <;>
          simp [runLoop, chunksRead, outBytes, termSuffix, ih]
      | chunk bs =>
        cases fdR with
        | false =>
          cases stdinR <;>
            simp [runLoop, chunksRead, outBytes, termSuffix, ih]
        | true =>
          by_cases hbs : bs.length = 0 <;> cases stdinR <;>
            simp [runLoop, chunksRead, outBytes, termSuffix, hbs, ih]

/-- Under the `os.read(fd, 64)` contract, every chunk read is ≤ 64 bytes. -/
theorem chunksRead_le64 (tr : List Event) (h : wf64 tr = true) :
    ∀ bs ∈ chunksRead tr, bs.length ≤ 64 := by
  induction tr with
  | nil => simp [chunksRead]
  | cons e es ih =>
    cases e with
    | exc => simp [chunksRead]
    | wake fdR stdinR rd d =>
      cases rd with
      | rerr =>
        have h' : wf64 es = true := by simpa [wf64] using h
        cases fdR <;> cases stdinR <;> simp [chunksRead] <;> exact ih h'
      | chunk bs =>
        have h1 : bs.length ≤ 64 := by
          simp [wf64] at h; exact h.1
        have h' : wf64 es = true := by
          simp [wf64] at h; exact h.2
        cases fdR with
        | false => cases stdinR <;> simp [chunksRead] <;> exact ih h'
        | true =>
          by_cases hbs : bs.length = 0 <;> cases stdinR <;>
            simp [chunksRead, hbs, h1, ih h'] <;>
            intro b hb <;> first
              | exact hb ▸ h1
              | exact ih h' b hb

/-- Once startup succeeds through `tcgetattr`, the effect trace decomposes as
header effects, the raw-mode switch, the loop effects, and the restoring
`tcsetattr` as the single final element. -/
theorem mainEffects_decomp (env : Env) (c r : Nat) (old : TermAttrs)
    (ho : env.openOk = true) (hs : env.size = some (c, r))
    (hc : c < 2 ^ 32) (hr : r < 2 ^ 32) (hg : env.tcget = some old) :
    mainEffects env =
      (Effect.openTTY :: Effect.writeOut (le32 c ++ le32 r) ::
        Effect.setAttr TCSAFLUSH (rawMode old) ::
        (if env.setRawRaises then [] else (runLoop env.iters).1)) ++
      [Effect.setAttr TCSAFLUSH old] := by
  simp [mainEffects, ho, hs, hc, hr, hg]
  exact ⟨hc, hr⟩

/-- The restoring `tcsetattr(fd, TCSAFLUSH, old)` is the last effect of any
run whose startup reached `tcgetattr`, whatever the loop did. -/
theorem mainEffects_getLast (env : Env) (c r : Nat) (old : TermAttrs)
    (ho : env.openOk = true) (hs : env.size = some (c, r))
    (hc : c < 2 ^ 32) (hr : r < 2 ^ 32) (hg : env.tcget = some old) :
    (mainEffects env).getLast? = some (Effect.setAttr TCSAFLUSH old) := by
  rw [mainEffects_decomp env c r old ho hs hc hr hg, List.getLast?_concat]

/-- The loop never emits a close of the tty descriptor. -/
theorem runLoop_no_close (tr : List Event) :
    Effect.closeFd ∉ (runLoop tr).1 := by
  induction tr with
  | nil => simp [runLoop]
  | cons e es ih =>
    cases e with
    | exc => simp [runLoop]
    | wake fdR stdinR rd d =>
      cases rd with
      | rerr => cases fdR <;> cases stdinR <;> simp [runLoop] <;> exact ih
      | chunk bs =>
        cases fdR with
        | false => cases stdinR <;> simp [runLoop] <;> exact ih
        | true =>
          by_cases hbs : bs.length = 0 <;> cases stdinR <;>
            simp [runLoop, hbs] <;> exact ih

/-- The loop's behaviour does not depend on the bytes pending on stdin:
traces equal after erasing stdin content produce identical results. -/
theorem runLoop_strip (tr1 tr2 : List Event)
    (h : tr1.map stripStdin = tr2.map stripStdin) :
    runLoop tr1 = runLoop tr2 := by
  induction tr1 generalizing tr2 with
  | nil =>
    cases tr2 with
    | nil => rfl
    | cons _ _ => simp at h
  | cons e es ih =>
    cases tr2 with
    | nil => simp at h
    | cons e2 es2 =>
      simp only [List.map_cons, List.cons.injEq] at h
      obtain ⟨h1, h2⟩ := h
      have hrec := ih es2 h2
      cases e with
      | exc =>
        cases e2 with
        | exc => simp [runLoop]
        | wake f2 s2 rd2 d2 => simp [stripStdin] at h1
      | wake f s rd d =>
        cases e2 with
        | exc => simp [stripStdin] at h1
        | wake f2 s2 rd2 d2 =>
          simp only [stripStdin, Event.wake.injEq] at h1
          obtain ⟨hf, hs, hrd, -⟩ := h1
          subst hf; subst hs; subst hrd
          simp only [runLoop, hrec]

/-- A tty read that raises produces exactly the same effects as a tty read
returning zero bytes, wherever it occurs in the trace. -/
theorem runLoop_err_eq_eof (pre suf1 suf2 : List Event) (sR : Bool)
    (d1 d2 : List Nat) :
    (runLoop (pre ++ Event.wake true sR ReadRes.rerr d1 :: suf1)).1 =
      (runLoop (pre ++ Event.wake true sR (ReadRes.chunk []) d2 :: suf2)).1 := by
  induction pre with
  | nil => cases sR <;> simp [runLoop]
  | cons e es ih =>
    cases e with
    | exc => simp [runLoop]
    | wake fdR stdinR rd d =>
      cases rd with
      | rerr => cases fdR <;> cases stdinR <;> simp [runLoop] <;> exact ih
      | chunk bs =>
        cases fdR with
        | false => cases stdinR <;> simp [runLoop] <;> exact ih
        | true =>
          by_cases hbs : bs.length = 0 <;> cases stdinR <;>
            simp [runLoop, hbs] <;> exact ih

/-- `outBytes` distributes over concatenation of effect lists. -/
theorem outBytes_append (l1 l2 : List Effect) :
    outBytes (l1 ++ l2) = outBytes l1 ++ outBytes l2 := by
  induction l1 with
  | nil => simp [outBytes]
  | cons e es ih => cases e <;> simp [outBytes, ih]

/-! ## Claims -/

/-- C1: for every sequence of successful reads from the terminal device
during the loop, the bytes written to standard output after the 8-byte
header are exactly the concatenation of the chunks read, in the order they
were read (followed only by the protocol's separate 0x00 terminator when
the loop exits via the stdin path), with each chunk at most 64 bytes long. -/
theorem C1_relay (env : Env) (c r : Nat) (old : TermAttrs)
    (ho : env.openOk = true) (hs : env.size = some (c, r))
    (hc : c < 2 ^ 32) (hr : r < 2 ^ 32) (hg : env.tcget = some old)
    (hraw : env.setRawRaises = false) (hwf : wf64 env.iters = true) :
    outBytes (mainEffects env) =
      (le32 c ++ le32 r) ++ ((chunksRead env.iters).flatten ++
        termSuffix (runLoop env.iters).2) ∧
    ∀ bs ∈ chunksRead env.iters, bs.length ≤ 64 := by
  refine ⟨?_, chunksRead_le64 env.iters hwf⟩
  rw [mainEffects_decomp env c r old ho hs hc hr hg, outBytes_append, hraw]
  simp [outBytes, runLoop_out_eq]

/-- C2: for a terminal whose geometry query returns `(c, r)` with both
values below 2^32 (including (0,0) and the 32-bit maxima), the first 8
bytes written to standard output are the 4-byte little-endian encoding of
`c` followed by that of `r`, emitted exactly once at startup, before any
other output. -/
theorem C2_header (env : Env) (c r : Nat)
    (ho : env.openOk = true) (hs : env.size = some (c, r))
    (hc : c < 2 ^ 32) (hr : r < 2 ^ 32) :
    (∃ rest, mainEffects env =
        Effect.openTTY :: Effect.writeOut (le32 c ++ le32 r) :: rest ∧
        outBytes (mainEffects env) = (le32 c ++ le32 r) ++ outBytes rest) ∧
    (outBytes (mainEffects env)).take 8 = le32 c ++ le32 r ∧
    (le32 c ++ le32 r).length = 8 ∧
    fromLE (le32 c) = c ∧ fromLE (le32 r) = r := by
  have hdec : ∃ rest, mainEffects env =
      Effect.openTTY :: Effect.writeOut (le32 c ++ le32 r) :: rest := by
    cases hg : env.tcget with
    | none => exact ⟨[], by simp [mainEffects, ho, hs, hc, hr, hg]; exact ⟨hc, hr⟩⟩
    | some old =>
      refine ⟨Effect.setAttr TCSAFLUSH (rawMode old) ::
        ((if env.setRawRaises then [] else (runLoop env.iters).1) ++
          [Effect.setAttr TCSAFLUSH old]), ?_⟩
      rw [mainEffects_decomp env c r old ho hs hc hr hg]
      simp
  obtain ⟨rest, hrest⟩ := hdec
  have hout : outBytes (mainEffects env) = (le32 c ++ le32 r) ++ outBytes rest := by
    rw [hrest]; simp [outBytes]
  have hlen : (le32 c ++ le32 r).length = 8 := by simp [le32]
  refine ⟨⟨rest, hrest, hout⟩, ?_, hlen, ?_, ?_⟩
  · rw [hout, ← hlen, List.take_left]
  · simp only [le32, fromLE, List.foldr]; omega
  · simp only [le32, fromLE, List.foldr]; omega

/-- C3: on every exit path of the bridging loop — normal termination, tty
end-of-stream, tty read error, or any exception raised inside the loop —
the saved original attribute state is restored by a final
`tcsetattr(fd, TCSAFLUSH, old)` before the process exits. -/
theorem C3_restore (env : Env) (c r : Nat) (old : TermAttrs)
    (ho : env.openOk = true) (hs : env.size = some (c, r))
    (hc : c < 2 ^ 32) (hr : r < 2 ^ 32) (hg : env.tcget = some old) :
    (mainEffects env).getLast? = some (Effect.setAttr TCSAFLUSH old) :=
  mainEffects_getLast env c r old ho hs hc hr hg

/-- C4: the trailing 0x00 terminator byte is appended to the output exactly
when the loop exits through the stdin-became-readable branch; on tty
end-of-stream or tty read-error exit the output is the header plus the
relayed chunks with no trailing 0x00. -/
theorem C4_terminator (env : Env) (c r : Nat) (old : TermAttrs)
    (ho : env.openOk = true) (hs : env.size = some (c, r))
    (hc : c < 2 ^ 32) (hr : r < 2 ^ 32) (hg : env.tcget = some old)
    (hraw : env.setRawRaises = false) :
    ((runLoop env.iters).2 = some ExitReason.stdinSig →
      outBytes (mainEffects env) =
        (le32 c ++ le32 r) ++ (chunksRead env.iters).flatten ++ [0]) ∧
    (((runLoop env.iters).2 = some ExitReason.ttyEof ∨
        (runLoop env.iters).2 = some ExitReason.ttyErr) →
      outBytes (mainEffects env) =
        (le32 c ++ le32 r) ++ (chunksRead env.iters).flatten) := by
  have hout : outBytes (mainEffects env) =
      (le32 c ++ le32 r) ++ ((chunksRead env.iters).flatten ++
        termSuffix (runLoop env.iters).2) := by
    rw [mainEffects_decomp env c r old ho hs hc hr hg, outBytes_append, hraw]
    simp [outBytes, runLoop_out_eq]
  constructor
  · intro hsig
    rw [hout, hsig]
    simp [termSuffix]
  · intro heof
    rw [hout]
    rcases heof with h | h <;> rw [h] <;> simp [termSuffix]

/-- C5 counterexample: a wakeup in which both the terminal fd and stdin are
reported readable but the tty read returns zero bytes (end-of-stream).  The
claim predicts the stdin branch still executes, writing the 0x00 byte and
exiting through the stdin path; in the code the `break` on the zero-length
read skips the stdin check, so nothing is written and the exit reason is
tty end-of-stream. -/
theorem C5_counterexample :
    runLoop [Event.wake true true (ReadRes.chunk []) []] =
      ([], some ExitReason.ttyEof) ∧
    Effect.writeOut [0] ∉ (runLoop [Event.wake true true (ReadRes.chunk []) []]).1 := by
  decide

/-- C5 amended: on a wakeup with both sources readable, if the tty read
succeeds with a nonempty chunk then both branches run before the next wait
— the chunk is written first, then the 0x00 byte — and the loop exits via
the stdin path; but if the tty read returns end-of-stream or raises, the
loop exits immediately and the stdin branch does not execute (no 0x00). -/
theorem C5_amended (bs d1 d2 d3 : List Nat) (es1 es2 es3 : List Event)
    (hbs : bs ≠ []) :
    runLoop (Event.wake true true (ReadRes.chunk bs) d1 :: es1) =
      ([Effect.writeOut bs, Effect.writeOut [0]], some ExitReason.stdinSig) ∧
    runLoop (Event.wake true true (ReadRes.chunk []) d2 :: es2) =
      ([], some ExitReason.ttyEof) ∧
    runLoop (Event.wake true true ReadRes.rerr d3 :: es3) =
      ([], some ExitReason.ttyErr) := by
  refine ⟨?_, by simp [runLoop], by simp [runLoop]⟩
  simp [runLoop, List.length_eq_zero, hbs]

/-- C6: a tty read error inside the loop terminates it silently, with the
same observable effects as a zero-length (end-of-stream) read at the same
point: no exception escapes the loop (the exit reason is the tty-error
break, not a propagated exception), the full effect traces coincide, and
the restoring `tcsetattr` still happens last. -/
theorem C6_readErr (env : Env) (c r : Nat) (old : TermAttrs)
    (pre suf : List Event) (sR : Bool) (d : List Nat)
    (ho : env.openOk = true) (hs : env.size = some (c, r))
    (hc : c < 2 ^ 32) (hr : r < 2 ^ 32) (hg : env.tcget = some old)
    (hit : env.iters = pre ++ Event.wake true sR ReadRes.rerr d :: suf) :
    mainEffects env =
      mainEffects { env with
        iters := pre ++ Event.wake true sR (ReadRes.chunk []) d :: suf } ∧
    runLoop (Event.wake true sR ReadRes.rerr d :: suf) =
      ([], some ExitReason.ttyErr) ∧
    (mainEffects env).getLast? = some (Effect.setAttr TCSAFLUSH old) := by
  refine ⟨?_, by cases sR <;> simp [runLoop],
    mainEffects_getLast env c r old ho hs hc hr hg⟩
  rw [mainEffects_decomp env c r old ho hs hc hr hg,
    mainEffects_decomp { env with
      iters := pre ++ Event.wake true sR (ReadRes.chunk []) d :: suf }
      c r old ho hs hc hr hg]
  rw [hit]
  cases hsr : env.setRawRaises <;> simp [hsr]
  exact runLoop_err_eq_eof pre suf suf sR d d

/-- C7: the modified attribute list equals the saved original with exactly
the ICRNL bit cleared in the input-flags field and the ECHO, ICANON and
ISIG bits cleared in the local-flags field, every other field unchanged,
and it is the attribute list applied by the startup `tcsetattr` with the
TCSAFLUSH (drain output, discard pending input) action. -/
theorem C7_rawMode (env : Env) (c r : Nat) (old : TermAttrs)
    (ho : env.openOk = true) (hs : env.size = some (c, r))
    (hc : c < 2 ^ 32) (hr : r < 2 ^ 32) (hg : env.tcget = some old) :
    (∀ i, (rawMode old).iflag.testBit i =
      ((old.iflag.testBit i) && !(ICRNL.testBit i))) ∧
    (∀ i, (rawMode old).lflag.testBit i =
      ((old.lflag.testBit i) && !((ECHO ||| ICANON ||| ISIG).testBit i))) ∧
    (rawMode old).oflag = old.oflag ∧ (rawMode old).cflag = old.cflag ∧
    (rawMode old).ispeed = old.ispeed ∧ (rawMode old).ospeed = old.ospeed ∧
    (rawMode old).cc = old.cc ∧
    (∃ rest, mainEffects env =
        Effect.openTTY :: Effect.writeOut (le32 c ++ le32 r) ::
          Effect.setAttr TCSAFLUSH (rawMode old) :: rest) := by
  refine ⟨fun i => ?_, fun i => ?_, rfl, rfl, rfl, rfl, rfl,
    (if env.setRawRaises then [] else (runLoop env.iters).1) ++
      [Effect.setAttr TCSAFLUSH old], ?_⟩
  · simp [rawMode, Nat.testBit_ldiff]
  · simp [rawMode, Nat.testBit_ldiff]
  · rw [mainEffects_decomp env c r old ho hs hc hr hg]
    simp

/-- C8: standard input is never read — only polled — so two runs that
differ only in the byte content pending on standard input (same readiness
timing, same terminal behaviour, same startup results) produce identical
effect traces, hence identical bytes on standard output. -/
theorem C8_noStdinFlow (env1 env2 : Env)
    (h1 : env1.openOk = env2.openOk) (h2 : env1.size = env2.size)
    (h3 : env1.tcget = env2.tcget) (h4 : env1.setRawRaises = env2.setRawRaises)
    (h5 : env1.iters.map stripStdin = env2.iters.map stripStdin) :
    mainEffects env1 = mainEffects env2 := by
  have hl : runLoop env1.iters = runLoop env2.iters := runLoop_strip _ _ h5
  rw [mainEffects, mainEffects, h1, h2, h3, h4, hl]

/-- C9 counterexample: a run that starts up normally and exits normally
(terminal end-of-stream) performs no close operation on the terminal
descriptor — the program has no `os.close` call — refuting the claim that
a close is performed on every exit path. -/
theorem C9_counterexample :
    Effect.closeFd ∉ mainEffects
      { openOk := true, size := some (80, 24),
        tcget := some ⟨27906, 5, 1215, 35387, 15, 15, [3, 28, 127]⟩,
        setRawRaises := false,
        iters := [Event.wake true false (ReadRes.chunk []) []] } := by
  decide

/-- C9 amended: the program never performs a close operation on the
terminal descriptor on any path; the descriptor is released only implicitly
when the process exits (attribute restoration, by contrast, does occur on
every exit path once the original state was saved). -/
theorem C9_noClose (env : Env) : Effect.closeFd ∉ mainEffects env := by
  rcases env with ⟨oo, sz, tg, srr, its⟩
  cases oo with
  | false => simp [mainEffects]
  | true =>
    cases sz with
    | none => simp [mainEffects]
    | some p =>
      obtain ⟨c, r⟩ := p
      by_cases hcr : c < 2 ^ 32 ∧ r < 2 ^ 32
      · cases tg with
        | none => simp [mainEffects, hcr]
        | some old =>
          rw [mainEffects_decomp ⟨true, some (c, r), some old, srr, its⟩ c r old
            rfl rfl hcr.1 hcr.2 rfl]
          simp only [List.mem_append, List.mem_cons, List.mem_singleton]
          push_neg
          refine ⟨⟨by simp, by simp, by simp, ?_⟩, by simp⟩
          cases srr <;> simp
          exact runLoop_no_close its
      · simp only [mainEffects]
        rw [if_neg hcr]
        simp

/-- C10: if `tcgetattr` fails right after a successful open and geometry
query, the 8-byte geometry header has already been written to standard
output — the header write precedes every attribute operation — so a
consumer can see protocol bytes from a run that aborts with a fatal
startup error. -/
theorem C10_headerFirst (env : Env) (c r : Nat)
    (ho : env.openOk = true) (hs : env.size = some (c, r))
    (hc : c < 2 ^ 32) (hr : r < 2 ^ 32) (hg : env.tcget = none) :
    mainEffects env = [Effect.openTTY, Effect.writeOut (le32 c ++ le32 r)] ∧
    outBytes (mainEffects env) = le32 c ++ le32 r := by
  have h : mainEffects env = [Effect.openTTY, Effect.writeOut (le32 c ++ le32 r)] := by
    simp [mainEffects, ho, hs, hg]
    exact ⟨hc, hr⟩
  exact ⟨h, by rw [h]; simp [outBytes]⟩

/-! ## Concrete runs used as witnesses -/

/-- A sample saved attribute list (typical cooked-mode values). -/
def attrsW : TermAttrs := ⟨27906, 5, 1215, 35387, 15, 15, [3, 28, 127, 21]⟩

/-- A run on an 80×24 terminal that relays one two-byte chunk and then
exits because stdin became readable. -/
def envW : Env :=
  { openOk := true, size := some (80, 24), tcget := some attrsW,
    setRawRaises := false,
    iters := [Event.wake true false (ReadRes.chunk [104, 105]) [],
              Event.wake false true (ReadRes.chunk []) [9]] }

/-- A run whose geometry query returns the 32-bit maximum and zero, and
whose `tcgetattr` raises. -/
def envW2 : Env :=
  { openOk := true, size := some (4294967295, 0), tcget := none,
    setRawRaises := false, iters := [] }

/-- A run whose only wakeup is a tty read error. -/
def envW6 : Env :=
  { openOk := true, size := some (80, 24), tcget := some attrsW,
    setRawRaises := false,
    iters := [Event.wake true false ReadRes.rerr []] }

/-- A run whose stdin has pending bytes `[1, 2, 3]` when it becomes
readable. -/
def envW8a : Env :=
  { openOk := true, size := some (80, 24), tcget := some attrsW,
    setRawRaises := false,
    iters := [Event.wake true true (ReadRes.chunk [104]) [1, 2, 3]] }

/-- The same run as `envW8a` with empty stdin content. -/
def envW8b : Env :=
  { openOk := true, size := some (80, 24), tcget := some attrsW,
    setRawRaises := false,
    iters := [Event.wake true true (ReadRes.chunk [104]) []] }

theorem C1_relay_witness :
    envW.openOk = true ∧ envW.size = some (80, 24) ∧
    80 < 2 ^ 32 ∧ 24 < 2 ^ 32 ∧ envW.tcget = some attrsW ∧
    envW.setRawRaises = false ∧ wf64 envW.iters = true ∧
    (outBytes (mainEffects envW) =
      (le32 80 ++ le32 24) ++ ((chunksRead envW.iters).flatten ++
        termSuffix (runLoop envW.iters).2) ∧
     ∀ bs ∈ chunksRead envW.iters, bs.length ≤ 64) :=
  ⟨rfl, rfl, by decide, by decide, rfl, rfl, by decide,
   C1_relay envW 80 24 attrsW rfl rfl (by decide) (by decide) rfl rfl (by decide)⟩

theorem C2_header_witness :
    envW2.openOk = true ∧ envW2.size = some (4294967295, 0) ∧
    4294967295 < 2 ^ 32 ∧ 0 < 2 ^ 32 ∧
    ((∃ rest, mainEffects envW2 =
        Effect.openTTY :: Effect.writeOut (le32 4294967295 ++ le32 0) :: rest ∧
        outBytes (mainEffects envW2) =
          (le32 4294967295 ++ le32 0) ++ outBytes rest) ∧
     (outBytes (mainEffects envW2)).take 8 = le32 4294967295 ++ le32 0 ∧
     (le32 4294967295 ++ le32 0).length = 8 ∧
     fromLE (le32 4294967295) = 4294967295 ∧ fromLE (le32 0) = 0) :=
  ⟨rfl, rfl, by decide, by decide,
   C2_header envW2 4294967295 0 rfl rfl (by decide) (by decide)⟩

theorem C3_restore_witness :
    envW.openOk = true ∧ envW.size = some (80, 24) ∧
    80 < 2 ^ 32 ∧ 24 < 2 ^ 32 ∧ envW.tcget = some attrsW ∧
    (mainEffects envW).getLast? = some (Effect.setAttr TCSAFLUSH attrsW) :=
  ⟨rfl, rfl, by decide, by decide, rfl,
   C3_restore envW 80 24 attrsW rfl rfl (by decide) (by decide) rfl⟩

theorem C4_terminator_witness :
    envW.openOk = true ∧ envW.size = some (80, 24) ∧
    80 < 2 ^ 32 ∧ 24 < 2 ^ 32 ∧ envW.tcget = some attrsW ∧
    envW.setRawRaises = false ∧
    (((runLoop envW.iters).2 = some ExitReason.stdinSig →
      outBytes (mainEffects envW) =
        (le32 80 ++ le32 24) ++ (chunksRead envW.iters).flatten ++ [0]) ∧
     (((runLoop envW.iters).2 = some ExitReason.ttyEof ∨
        (runLoop envW.iters).2 = some ExitReason.ttyErr) →
      outBytes (mainEffects envW) =
        (le32 80 ++ le32 24) ++ (chunksRead envW.iters).flatten)) :=
  ⟨rfl, rfl, by decide, by decide, rfl, rfl,
   C4_terminator envW 80 24 attrsW rfl rfl (by decide) (by decide) rfl rfl⟩

theorem C5_amended_witness :
    ([104] : List Nat) ≠ [] ∧
    (runLoop (Event.wake true true (ReadRes.chunk [104]) [] :: []) =
      ([Effect.writeOut [104], Effect.writeOut [0]], some ExitReason.stdinSig) ∧
     runLoop (Event.wake true true (ReadRes.chunk []) [] :: []) =
      ([], some ExitReason.ttyEof) ∧
     runLoop (Event.wake true true ReadRes.rerr [] :: []) =
      ([], some ExitReason.ttyErr)) :=
  ⟨by decide, C5_amended [104] [] [] [] [] [] [] (by decide)⟩

theorem C6_readErr_witness :
    envW6.openOk = true ∧ envW6.size = some (80, 24) ∧
    80 < 2 ^ 32 ∧ 24 < 2 ^ 32 ∧ envW6.tcget = some attrsW ∧
    envW6.iters = [] ++ Event.wake true false ReadRes.rerr [] :: [] ∧
    (mainEffects envW6 =
      mainEffects { envW6 with
        iters := [] ++ Event.wake true false (ReadRes.chunk []) [] :: [] } ∧
     runLoop (Event.wake true false ReadRes.rerr [] :: []) =
      ([], some ExitReason.ttyErr) ∧
     (mainEffects envW6).getLast? = some (Effect.setAttr TCSAFLUSH attrsW)) :=
  ⟨rfl, rfl, by decide, by decide, rfl, rfl,
   C6_readErr envW6 80 24 attrsW [] [] false [] rfl rfl (by decide) (by decide)
     rfl rfl⟩

theorem C7_rawMode_witness :
    envW.openOk = true ∧ envW.size = some (80, 24) ∧
    80 < 2 ^ 32 ∧ 24 < 2 ^ 32 ∧ envW.tcget = some attrsW ∧
    ((∀ i, (rawMode attrsW).iflag.testBit i =
        ((attrsW.iflag.testBit i) && !(ICRNL.testBit i))) ∧
     (∀ i, (rawMode attrsW).lflag.testBit i =
        ((attrsW.lflag.testBit i) && !((ECHO ||| ICANON ||| ISIG).testBit i))) ∧
     (rawMode attrsW).oflag = attrsW.oflag ∧
     (rawMode attrsW).cflag = attrsW.cflag ∧
     (rawMode attrsW).ispeed = attrsW.ispeed ∧
     (rawMode attrsW).ospeed = attrsW.ospeed ∧
     (rawMode attrsW).cc = attrsW.cc ∧
     (∃ rest, mainEffects envW =
        Effect.openTTY :: Effect.writeOut (le32 80 ++ le32 24) ::
          Effect.setAttr TCSAFLUSH (rawMode attrsW) :: rest)) :=
  ⟨rfl, rfl, by decide, by decide, rfl,
   C7_rawMode envW 80 24 attrsW rfl rfl (by decide) (by decide) rfl⟩

theorem C8_noStdinFlow_witness :
    envW8a.openOk = envW8b.openOk ∧ envW8a.size = envW8b.size ∧
    envW8a.tcget = envW8b.tcget ∧ envW8a.setRawRaises = envW8b.setRawRaises ∧
    envW8a.iters.map stripStdin = envW8b.iters.map stripStdin ∧
    mainEffects envW8a = mainEffects envW8b :=
  ⟨rfl, rfl, rfl, rfl, by decide,
   C8_noStdinFlow envW8a envW8b rfl rfl rfl rfl (by decide)⟩

theorem C10_headerFirst_witness :
    envW2.openOk = true ∧ envW2.size = some (4294967295, 0) ∧
    4294967295 < 2 ^ 32 ∧ 0 < 2 ^ 32 ∧ envW2.tcget = none ∧
    (mainEffects envW2 =
      [Effect.openTTY, Effect.writeOut (le32 4294967295 ++ le32 0)] ∧
     outBytes (mainEffects envW2) = le32 4294967295 ++ le32 0) :=
  ⟨rfl, rfl, by decide, by decide, rfl,
   C10_headerFirst envW2 4294967295 0 rfl rfl (by decide) (by decide) rfl⟩
